import Mathlib

/-!
Shallow embedding of the ProductCatalog similarity engine
(`backend/catalog/models.py`, `backend/catalog/views.py`,
`backend/catalog/management/commands/init_similarities.py`).

Modelling conventions:
* A `Product` is identified by its primary key `id`; the catalog fields
  (name, description, category, tags) play no role in the similarity
  logic and are omitted.  Django compares model instances and foreign
  keys by primary key, so all lookups here go through `id`.
* Float scores are modelled as exact rationals (`ℚ`); the literals
  `0.5`, `0.1`, `0.05` of the source are the rationals `1/2`, `1/10`,
  `1/20`.
* The database table of `ProductSimilarity` rows is a `List
  ProductSimilarity`; an `INSERT` appends, an `UPDATE` rewrites the
  matching row in place.  Django runs these views and the management
  command in autocommit mode (there is no `transaction.atomic` in the
  source), so every ORM write commits immediately; an exception aborts
  the remaining writes but keeps the already committed ones.  Stateful
  operations therefore return the list of rows actually persisted
  together with an `Except`-style outcome.
* `unique_together = ('product_a', 'product_b')` is modelled as a check
  performed by the `INSERT`: inserting a row whose `(product_a,
  product_b)` pair of ids is already present fails (IntegrityError).
-/

namespace ProductCatalog

/-- A catalog product, identified by its primary key. -/
structure Product where
  id : Nat
  deriving DecidableEq, Repr

/-- A row of the `ProductSimilarity` table: a similarity score between two
products (`models.py`). -/
structure ProductSimilarity where
  product_a : Product
  product_b : Product
  score : ℚ
  deriving DecidableEq, Repr

/-- The pair of product ids stored in a similarity row (the columns of the
`unique_together` constraint). -/
def simKey (s : ProductSimilarity) : Nat × Nat :=
  (s.product_a.id, s.product_b.id)

/-- `ProductSimilarity.save`'s normalization step (`models.py`):
swap the two products when `product_a.id > product_b.id`. -/
def ProductSimilarity.normalize (s : ProductSimilarity) : ProductSimilarity :=
  if s.product_a.id > s.product_b.id then
    { s with product_a := s.product_b, product_b := s.product_a }
  else s

/-- The canonical orientation `(if p.id < q.id then (p, q) else (q, p))` used
by `UpdateSimilarityView.get_similarity_object`, the `init_similarities`
command and `CreateProductView.post`. -/
def canonicalPair (prod1 prod2 : Product) : Product × Product :=
  if prod1.id < prod2.id then (prod1, prod2) else (prod2, prod1)

/-- The id pair of the canonical orientation. -/
def canonKey (prod1 prod2 : Product) : Nat × Nat :=
  ((canonicalPair prod1 prod2).1.id, (canonicalPair prod1 prod2).2.id)

/-- Row filter `product_a=a AND product_b=b` (Django matches foreign keys by
primary key). -/
def simMatches (a b : Product) (s : ProductSimilarity) : Bool :=
  s.product_a.id == a.id && s.product_b.id == b.id

/-- `Product.objects.get(pk=...)`: `none` models `DoesNotExist`. -/
def getProductByPk (products : List Product) (pk : Nat) : Option Product :=
  products.find? (fun p => p.id == pk)

/-- `INSERT` of a similarity row via `ProductSimilarity.objects.create` /
the create branch of `get_or_create`: runs the model `save` (normalize,
then persist); fails (IntegrityError) when a row with the same
`(product_a, product_b)` id pair already exists (`unique_together`). -/
def createSim (a b : Product) (score : ℚ) (sims : List ProductSimilarity) :
    Except Unit (List ProductSimilarity) :=
  let s := ProductSimilarity.normalize ⟨a, b, score⟩
  if sims.any (simMatches s.product_a s.product_b) then
    Except.error ()
  else
    Except.ok (sims ++ [s])

/-- `ProductSimilarity.objects.get_or_create(product_a=a, product_b=b,
score=sc)` as written in `init_similarities.py`: since `score` is passed
as a plain kwarg (not in `defaults`), it takes part in the lookup; when
the lookup misses, the same kwargs are used to create, and a
`unique_together` conflict propagates as an error. -/
def get_or_create (a b : Product) (sc : ℚ) (sims : List ProductSimilarity) :
    Except Unit (List ProductSimilarity × Bool) :=
  match sims.find? (fun s => simMatches a b s && decide (s.score = sc)) with
  | some _ => Except.ok (sims, false)
  | none =>
    match createSim a b sc sims with
    | Except.error e => Except.error e
    | Except.ok sims2 => Except.ok (sims2, true)

/-- `UpdateSimilarityView.get_similarity_object`: canonicalize the pair,
then `get_object_or_404(ProductSimilarity, product_a=..., product_b=...)`;
`none` models the 404. -/
def get_similarity_object (prod1 prod2 : Product) (sims : List ProductSimilarity) :
    Option ProductSimilarity :=
  let pab := canonicalPair prod1 prod2
  sims.find? (simMatches pab.1 pab.2)

/-- `sim_obj.score = v; sim_obj.save()` for a row previously fetched by the
canonical pair `(a, b)`: the `UPDATE` rewrites the score of the (unique,
first) row matching that pair; the keys are unchanged, so `save`'s
normalization is a no-op. -/
def saveScore (a b : Product) (v : ℚ) : List ProductSimilarity → List ProductSimilarity
  | [] => []
  | r :: rs =>
    if simMatches a b r then { r with score := v } :: rs
    else r :: saveScore a b v rs

/-- Errors surfaced by `UpdateSimilarityView.post`: a missing product
(`Product.objects.get` raising `DoesNotExist`) or a missing similarity row
(`get_object_or_404` raising 404). -/
inductive ViewError where
  | productNotFound
  | simNotFound
  deriving DecidableEq, Repr

/-- The decrement loop of `UpdateSimilarityView.post`: for each unclicked
product fetch the row and save `max(score - 0.05, 0.0)`.  Each save commits
immediately; a missing row aborts the loop, keeping earlier commits. -/
def decrLoop (cur : Product) :
    List Product → List ProductSimilarity →
    List ProductSimilarity × Except ViewError Unit
  | [], sims => (sims, Except.ok ())
  | p :: ps, sims =>
    match get_similarity_object cur p sims with
    | none => (sims, Except.error ViewError.simNotFound)
    | some s =>
      let pab := canonicalPair cur p
      decrLoop cur ps (saveScore pab.1 pab.2 (max (s.score - 0.05) 0.0) sims)

/-- `UpdateSimilarityView.post`: resolve the current and clicked products,
filter the unclicked products by `pk__in=other_ids`, save
`min(score + 0.1, 1.0)` on the clicked pair, then run the decrement loop.
Returns the rows as persisted (each save autocommits) and the outcome. -/
def updateSimilarityPost (products : List Product) (sims : List ProductSimilarity)
    (cur_id clicked_id : Nat) (other_ids : List Nat) :
    List ProductSimilarity × Except ViewError Unit :=
  match getProductByPk products cur_id with
  | none => (sims, Except.error ViewError.productNotFound)
  | some cur_product =>
    match getProductByPk products clicked_id with
    | none => (sims, Except.error ViewError.productNotFound)
    | some clicked_product =>
      let other_products := products.filter (fun p => other_ids.contains p.id)
      match get_similarity_object cur_product clicked_product sims with
      | none => (sims, Except.error ViewError.simNotFound)
      | some sim_obj =>
        let pab := canonicalPair cur_product clicked_product
        let sims1 := saveScore pab.1 pab.2 (min (sim_obj.score + 0.1) 1.0) sims
        decrLoop cur_product other_products sims1

/-- `itertools.combinations(products, 2)` on a list. -/
def combinations2 : List Product → List (Product × Product)
  | [] => []
  | x :: xs => xs.map (fun y => (x, y)) ++ combinations2 xs

/-- The pair loop of the `init_similarities` command: canonicalize each
pair, `get_or_create` it at score `0.5`, and accumulate the
`total_pairs` / `new_created` counters.  `get_or_create` commits
immediately; an unhandled error aborts the loop (there is no try/except
in the source), keeping earlier commits. -/
def handleGo : List (Product × Product) → List ProductSimilarity → Nat → Nat →
    List ProductSimilarity × Except Unit (Nat × Nat)
  | [], sims, total, created => (sims, Except.ok (total, created))
  | (prod1, prod2) :: rest, sims, total, created =>
    let pab := canonicalPair prod1 prod2
    match get_or_create pab.1 pab.2 0.5 sims with
    | Except.error e => (sims, Except.error e)
    | Except.ok (sims2, wasCreated) =>
      handleGo rest sims2 (total + 1) (created + if wasCreated then 1 else 0)

/-- `Command.handle` of `init_similarities`: iterate over all unordered
pairs of current products; on success report `(total_pairs, new_created)`. -/
def handle (products : List Product) (sims : List ProductSimilarity) :
    List ProductSimilarity × Except Unit (Nat × Nat) :=
  handleGo (combinations2 products) sims 0 0

/-- The creation loop of `CreateProductView.post`: for each product other
than the new one, `ProductSimilarity.objects.create` the canonical pair at
score `0.5`.  Creates commit immediately; an error aborts the loop. -/
def createLinkLoop (new_product : Product) :
    List Product → List ProductSimilarity →
    List ProductSimilarity × Except Unit Unit
  | [], sims => (sims, Except.ok ())
  | p :: ps, sims =>
    let pab := canonicalPair new_product p
    match createSim pab.1 pab.2 0.5 sims with
    | Except.error e => (sims, Except.error e)
    | Except.ok sims2 => createLinkLoop new_product ps sims2

/-- The similarity-linkage part of `CreateProductView.post`, after the
serializer has saved the new product: loop over
`Product.objects.exclude(id=new_product.id)` and create each pair.
`products` is the catalog after the insert (it contains `new_product`). -/
def createProductLinkage (new_product : Product) (products : List Product)
    (sims : List ProductSimilarity) :
    List ProductSimilarity × Except Unit Unit :=
  createLinkLoop new_product (products.filter (fun p => p.id != new_product.id)) sims

/-- `ProductSimilarity.objects.filter(Q(product_a=product) |
Q(product_b=product))` in `ProductDetailView.get`. -/
def findAllInvolving (product : Product) (sims : List ProductSimilarity) :
    List ProductSimilarity :=
  sims.filter (fun s => s.product_a.id == product.id || s.product_b.id == product.id)

/-- The descending-score order used by `order_by('-score')`; ties keep
discovery order (stable sort). -/
def scoreGE (s t : ProductSimilarity) : Prop :=
  t.score ≤ s.score

instance : DecidableRel scoreGE := fun s t => inferInstanceAs (Decidable (t.score ≤ s.score))

instance : IsTotal ProductSimilarity scoreGE :=
  ⟨fun s t => le_total t.score s.score⟩

instance : IsTrans ProductSimilarity scoreGE :=
  ⟨fun _ _ _ h1 h2 => le_trans h2 h1⟩

/-- The top-3 similarity rows of `ProductDetailView.get`:
`.order_by('-score')[:3]`. -/
def recommendRecords (product : Product) (sims : List ProductSimilarity) :
    List ProductSimilarity :=
  ((findAllInvolving product sims).insertionSort scoreGE).take 3

/-- Resolve the member of a row that is not the query product
(`if sim.product_a == product: ... else: ...`). -/
def resolveOther (product : Product) (s : ProductSimilarity) : Product :=
  if s.product_a = product then s.product_b else s.product_a

/-- The `recommended_products` list built by `ProductDetailView.get`. -/
def recommendations (product : Product) (sims : List ProductSimilarity) :
    List Product :=
  (recommendRecords product sims).map (resolveOther product)

/-- Invariant 1 of the spec: every stored row is canonically ordered. -/
def canonicalInv (sims : List ProductSimilarity) : Prop :=
  ∀ s ∈ sims, s.product_a.id < s.product_b.id

/-- The canonical id pair, on raw ids. -/
def natCanonKey (a b : Nat) : Nat × Nat :=
  if a < b then (a, b) else (b, a)

/-- Observable: the score stored at a given id pair (first matching row). -/
def scoreAt (sims : List ProductSimilarity) (k : Nat × Nat) : Option ℚ :=
  (sims.find? (fun s => simKey s == k)).map (fun s => s.score)

/-- The row that the creation paths persist for a pair: canonical
orientation, given score. -/
def canonRow (p q : Product) (sc : ℚ) : ProductSimilarity :=
  ⟨(canonicalPair p q).1, (canonicalPair p q).2, sc⟩

/-! ### Basic lemmas about keys and normalization -/

theorem simMatches_iff {a b : Product} {s : ProductSimilarity} :
    simMatches a b s = true ↔ simKey s = (a.id, b.id) := by
  simp [simMatches, simKey, Prod.ext_iff]

theorem canonKey_eq (p q : Product) : canonKey p q = natCanonKey p.id q.id := by
  simp only [canonKey, canonicalPair, natCanonKey]
  by_cases h : p.id < q.id <;> simp [h]

theorem natCanonKey_inj {c i j : Nat} (h : natCanonKey c i = natCanonKey c j) : i = j := by
  unfold natCanonKey at h
  split at h <;> split at h <;> simp_all [Prod.ext_iff] <;> omega

theorem natCanonKey_cases (a b : Nat) :
    natCanonKey a b = (a, b) ∨ natCanonKey a b = (b, a) := by
  unfold natCanonKey
  split
  · exact Or.inl rfl
  · exact Or.inr rfl

theorem canonicalPair_le (p q : Product) :
    (canonicalPair p q).1.id ≤ (canonicalPair p q).2.id := by
  unfold canonicalPair
  split <;> dsimp only <;> omega

theorem canonicalPair_lt {p q : Product} (h : p.id ≠ q.id) :
    (canonicalPair p q).1.id < (canonicalPair p q).2.id := by
  unfold canonicalPair
  split <;> dsimp only <;> omega

theorem normalize_score (s : ProductSimilarity) :
    (ProductSimilarity.normalize s).score = s.score := by
  unfold ProductSimilarity.normalize
  split <;> rfl

theorem normalize_of_le {a b : Product} (sc : ℚ) (h : a.id ≤ b.id) :
    ProductSimilarity.normalize ⟨a, b, sc⟩ = ⟨a, b, sc⟩ := by
  simp [ProductSimilarity.normalize, show ¬ a.id > b.id by omega]

theorem simKey_normalize (a b : Product) (sc : ℚ) :
    simKey (ProductSimilarity.normalize ⟨a, b, sc⟩) = natCanonKey a.id b.id := by
  unfold ProductSimilarity.normalize natCanonKey simKey
  rcases Nat.lt_trichotomy a.id b.id with h | h | h
  · rw [if_neg (by simp; omega), if_pos h]
  · rw [if_neg (by simp; omega), if_neg (by omega)]
    simp [h]
  · rw [if_pos (by simpa using h), if_neg (by omega)]

theorem simKey_canonRow (p q : Product) (sc : ℚ) :
    simKey (canonRow p q sc) = canonKey p q := rfl

/-! ### Lemmas about the `scoreAt` observable and `saveScore` -/

theorem scoreAt_nil (k : Nat × Nat) : scoreAt [] k = none := rfl

theorem scoreAt_cons (r : ProductSimilarity) (rs : List ProductSimilarity) (k : Nat × Nat) :
    scoreAt (r :: rs) k = if simKey r = k then some r.score else scoreAt rs k := by
  by_cases h : simKey r = k
  · rw [scoreAt, List.find?_cons_of_pos _ (by simp [h]), if_pos h]
    rfl
  · rw [scoreAt, List.find?_cons_of_neg _ (by simp [h]), if_neg h]
    rfl

theorem saveScore_cons_pos {a b : Product} {r : ProductSimilarity} (v : ℚ)
    (rs : List ProductSimilarity) (h : simMatches a b r = true) :
    saveScore a b v (r :: rs) = { r with score := v } :: rs := by
  simp [saveScore, h]

theorem saveScore_cons_neg {a b : Product} {r : ProductSimilarity} (v : ℚ)
    (rs : List ProductSimilarity) (h : ¬ simMatches a b r = true) :
    saveScore a b v (r :: rs) = r :: saveScore a b v rs := by
  simp [saveScore, h]

theorem simKey_setScore (r : ProductSimilarity) (v : ℚ) :
    simKey { r with score := v } = simKey r := rfl

theorem scoreAt_isSome_iff {sims : List ProductSimilarity} {k : Nat × Nat} :
    (scoreAt sims k).isSome ↔ k ∈ sims.map simKey := by
  induction sims with
  | nil => simp [scoreAt_nil]
  | cons r rs ih =>
    rw [scoreAt_cons]
    by_cases h : simKey r = k
    · simp [h]
    · simp [h, ih, Ne.symm h]

theorem saveScore_map_simKey (a b : Product) (v : ℚ) (sims : List ProductSimilarity) :
    (saveScore a b v sims).map simKey = sims.map simKey := by
  induction sims with
  | nil => rfl
  | cons r rs ih =>
    by_cases h : simMatches a b r = true
    · rw [saveScore_cons_pos v rs h]
      simp [simKey_setScore]
    · rw [saveScore_cons_neg v rs h]
      simp [ih]

theorem scoreAt_saveScore_ne (a b : Product) (v : ℚ) (sims : List ProductSimilarity)
    {k : Nat × Nat} (hk : k ≠ (a.id, b.id)) :
    scoreAt (saveScore a b v sims) k = scoreAt sims k := by
  induction sims with
  | nil => rfl
  | cons r rs ih =>
    by_cases h : simMatches a b r = true
    · have hr : simKey r = (a.id, b.id) := simMatches_iff.mp h
      have hne : simKey r ≠ k := by rw [hr]; exact fun he => hk he.symm
      rw [saveScore_cons_pos v rs h, scoreAt_cons, scoreAt_cons,
        if_neg (by rw [simKey_setScore]; exact hne), if_neg hne]
    · rw [saveScore_cons_neg v rs h, scoreAt_cons, scoreAt_cons]
      by_cases hr : simKey r = k
      · simp [hr]
      · simp [hr, ih]

theorem scoreAt_saveScore_self (a b : Product) (v : ℚ) (sims : List ProductSimilarity)
    (h : (scoreAt sims (a.id, b.id)).isSome) :
    scoreAt (saveScore a b v sims) (a.id, b.id) = some v := by
  induction sims with
  | nil => simp [scoreAt_nil] at h
  | cons r rs ih =>
    by_cases hm : simMatches a b r = true
    · have hr : simKey r = (a.id, b.id) := simMatches_iff.mp hm
      rw [saveScore_cons_pos v rs hm, scoreAt_cons, if_pos (by rw [simKey_setScore]; exact hr)]
    · have hr : simKey r ≠ (a.id, b.id) := fun he => hm (simMatches_iff.mpr he)
      rw [scoreAt_cons, if_neg hr] at h
      rw [saveScore_cons_neg v rs hm, scoreAt_cons, if_neg hr]
      exact ih h

theorem scoreAt_saveScore_isSome (a b : Product) (v : ℚ) (sims : List ProductSimilarity)
    (k : Nat × Nat) :
    (scoreAt (saveScore a b v sims) k).isSome = (scoreAt sims k).isSome := by
  by_cases hk : k = (a.id, b.id)
  · rw [hk]
    by_cases h : (scoreAt sims (a.id, b.id)).isSome
    · rw [scoreAt_saveScore_self a b v sims h]
      simp [h]
    · have h1 : (a.id, b.id) ∉ sims.map simKey := fun hm => h (scoreAt_isSome_iff.mpr hm)
      rw [← saveScore_map_simKey a b v sims] at h1
      have h2 : ¬ (scoreAt (saveScore a b v sims) (a.id, b.id)).isSome :=
        fun hs => h1 (scoreAt_isSome_iff.mp hs)
      simp only [Bool.not_eq_true] at h h2
      rw [h, h2]
  · rw [scoreAt_saveScore_ne a b v sims hk]

theorem saveScore_mem_bound {P : ℚ → Prop} {a b : Product} {v : ℚ}
    {sims : List ProductSimilarity}
    (hall : ∀ r ∈ sims, P r.score) (hv : P v) :
    ∀ r ∈ saveScore a b v sims, P r.score := by
  induction sims with
  | nil => simp [saveScore]
  | cons r rs ih =>
    by_cases h : simMatches a b r = true
    · simp only [saveScore, h, if_pos]
      intro r' hr'
      rcases List.mem_cons.mp hr' with he | hm
      · subst he; exact hv
      · exact hall r' (List.mem_cons_of_mem _ hm)
    · simp only [saveScore, h, Bool.false_eq_true, if_neg, not_false_iff]
      intro r' hr'
      rcases List.mem_cons.mp hr' with he | hm
      · rw [he]; exact hall r (List.mem_cons_self _ _)
      · exact ih (fun x hx => hall x (List.mem_cons_of_mem _ hx)) r' hm

theorem saveScore_products {a b : Product} {v : ℚ} {sims : List ProductSimilarity} :
    ∀ r' ∈ saveScore a b v sims, ∃ r ∈ sims,
      r'.product_a = r.product_a ∧ r'.product_b = r.product_b := by
  induction sims with
  | nil => simp [saveScore]
  | cons r rs ih =>
    by_cases h : simMatches a b r = true
    · simp only [saveScore, h, if_pos]
      intro r' hr'
      rcases List.mem_cons.mp hr' with he | hm
      · exact ⟨r, List.mem_cons_self _ _, by simp [he]⟩
      · exact ⟨r', List.mem_cons_of_mem _ hm, rfl, rfl⟩
    · simp only [saveScore, h, Bool.false_eq_true, if_neg, not_false_iff]
      intro r' hr'
      rcases List.mem_cons.mp hr' with he | hm
      · exact ⟨r, List.mem_cons_self _ _, by simp [he]⟩
      · rcases ih r' hm with ⟨r0, hr0, hab⟩
        exact ⟨r0, List.mem_cons_of_mem _ hr0, hab⟩

theorem canonKey_inj {c p q : Product} (h : canonKey c p = canonKey c q) : p.id = q.id := by
  rw [canonKey_eq, canonKey_eq] at h
  exact natCanonKey_inj h

/-! ### Lemmas about `get_similarity_object` -/

theorem find?_simMatches_eq (a b : Product) (sims : List ProductSimilarity) :
    sims.find? (simMatches a b) = sims.find? (fun s => simKey s == (a.id, b.id)) := by
  have hp : simMatches a b = fun s => simKey s == (a.id, b.id) := by
    funext s
    by_cases h : simKey s = (a.id, b.id)
    · simp [simMatches_iff.mpr h, h]
    · have : ¬ simMatches a b s = true := fun hm => h (simMatches_iff.mp hm)
      simp only [Bool.not_eq_true] at this
      simp [this, h]
  rw [hp]

theorem gso_eq_scoreAt (prod1 prod2 : Product) (sims : List ProductSimilarity) :
    (get_similarity_object prod1 prod2 sims).map (fun s => s.score) =
      scoreAt sims (canonKey prod1 prod2) := by
  rw [get_similarity_object, scoreAt, find?_simMatches_eq]
  rfl

theorem gso_isSome_iff (prod1 prod2 : Product) (sims : List ProductSimilarity) :
    (get_similarity_object prod1 prod2 sims).isSome =
      (scoreAt sims (canonKey prod1 prod2)).isSome := by
  rw [← gso_eq_scoreAt, Option.isSome_map']

theorem gso_eq_some_score {prod1 prod2 : Product} {sims : List ProductSimilarity}
    {s : ProductSimilarity} (h : get_similarity_object prod1 prod2 sims = some s) :
    scoreAt sims (canonKey prod1 prod2) = some s.score := by
  rw [← gso_eq_scoreAt, h, Option.map_some']

theorem gso_mem {prod1 prod2 : Product} {sims : List ProductSimilarity}
    {s : ProductSimilarity} (h : get_similarity_object prod1 prod2 sims = some s) :
    s ∈ sims := by
  rw [get_similarity_object] at h
  exact List.mem_of_find?_eq_some h

/-! ### Lemmas about the decrement loop of the feedback view -/

theorem decrLoop_nil (cur : Product) (sims : List ProductSimilarity) :
    decrLoop cur [] sims = (sims, Except.ok ()) := rfl

theorem decrLoop_cons_none {cur p : Product} {sims : List ProductSimilarity}
    (ps : List Product) (h : get_similarity_object cur p sims = none) :
    decrLoop cur (p :: ps) sims = (sims, Except.error ViewError.simNotFound) := by
  simp [decrLoop, h]

theorem decrLoop_cons_some {cur p : Product} {sims : List ProductSimilarity}
    {s : ProductSimilarity} (ps : List Product)
    (h : get_similarity_object cur p sims = some s) :
    decrLoop cur (p :: ps) sims =
      decrLoop cur ps
        (saveScore (canonicalPair cur p).1 (canonicalPair cur p).2
          (max (s.score - 0.05) 0.0) sims) := by
  simp [decrLoop, h]

theorem decrLoop_map_simKey (cur : Product) (ps : List Product)
    (sims : List ProductSimilarity) :
    ((decrLoop cur ps sims).1).map simKey = sims.map simKey := by
  induction ps generalizing sims with
  | nil => rfl
  | cons p ps ih =>
    cases h : get_similarity_object cur p sims with
    | none => rw [decrLoop_cons_none ps h]
    | some s =>
      rw [decrLoop_cons_some ps h, ih, saveScore_map_simKey]

theorem decrLoop_bounds {cur : Product} {ps : List Product}
    {sims : List ProductSimilarity}
    (hall : ∀ r ∈ sims, 0 ≤ r.score ∧ r.score ≤ 1) :
    ∀ r ∈ (decrLoop cur ps sims).1, 0 ≤ r.score ∧ r.score ≤ 1 := by
  induction ps generalizing sims with
  | nil => exact hall
  | cons p ps ih =>
    cases h : get_similarity_object cur p sims with
    | none =>
      rw [decrLoop_cons_none ps h]
      exact hall
    | some s =>
      rw [decrLoop_cons_some ps h]
      refine ih (saveScore_mem_bound (P := fun x => 0 ≤ x ∧ x ≤ 1) hall ?_)
      have hs := hall s (gso_mem h)
      constructor
      · rw [le_max_iff]
        right
        norm_num
      · rw [max_le_iff]
        constructor
        · linarith [hs.2]
        · norm_num

theorem saveScore_canonicalInv {a b : Product} {v : ℚ} {sims : List ProductSimilarity}
    (h : canonicalInv sims) : canonicalInv (saveScore a b v sims) := by
  intro r' hr'
  rcases saveScore_products r' hr' with ⟨r, hr, ha, hb⟩
  rw [ha, hb]
  exact h r hr

theorem decrLoop_canonicalInv {cur : Product} {ps : List Product}
    {sims : List ProductSimilarity} (h : canonicalInv sims) :
    canonicalInv (decrLoop cur ps sims).1 := by
  induction ps generalizing sims with
  | nil => exact h
  | cons p ps ih =>
    cases hg : get_similarity_object cur p sims with
    | none =>
      rw [decrLoop_cons_none ps hg]
      exact h
    | some s =>
      rw [decrLoop_cons_some ps hg]
      exact ih (saveScore_canonicalInv h)

theorem decrLoop_spec (cur : Product) (ps : List Product) (sims : List ProductSimilarity)
    (hex : ∀ p ∈ ps, (scoreAt sims (canonKey cur p)).isSome = true)
    (hnd : (ps.map Product.id).Nodup) :
    (decrLoop cur ps sims).2 = Except.ok () ∧
    ∀ k, scoreAt (decrLoop cur ps sims).1 k =
      if ∃ p ∈ ps, k = canonKey cur p
      then (scoreAt sims k).map (fun x => max (x - 0.05) 0.0)
      else scoreAt sims k := by
  induction ps generalizing sims with
  | nil =>
    refine ⟨rfl, fun k => ?_⟩
    rw [decrLoop_nil]
    simp
  | cons p ps ih =>
    have hp := hex p (List.mem_cons_self _ _)
    have hgso : (get_similarity_object cur p sims).isSome = true := by
      rw [gso_isSome_iff]
      exact hp
    obtain ⟨s, hs⟩ := Option.isSome_iff_exists.mp hgso
    have hsc : scoreAt sims (canonKey cur p) = some s.score := gso_eq_some_score hs
    set a := (canonicalPair cur p).1 with ha
    set b := (canonicalPair cur p).2 with hb
    have hkey : canonKey cur p = (a.id, b.id) := rfl
    set v : ℚ := max (s.score - 0.05) 0.0 with hv
    set sims1 := saveScore a b v sims with hsims1
    rw [decrLoop_cons_some ps hs]
    have hex1 : ∀ q ∈ ps, (scoreAt sims1 (canonKey cur q)).isSome = true := by
      intro q hq
      rw [hsims1, scoreAt_saveScore_isSome]
      exact hex q (List.mem_cons_of_mem _ hq)
    have hnd1 : (ps.map Product.id).Nodup := (List.nodup_cons.mp hnd).2
    have hpid : p.id ∉ ps.map Product.id := (List.nodup_cons.mp hnd).1
    obtain ⟨ihok, ihsc⟩ := ih sims1 hex1 hnd1
    refine ⟨ihok, fun k => ?_⟩
    rw [ihsc k]
    by_cases hk1 : k = canonKey cur p
    · have hcond : ¬ ∃ q ∈ ps, k = canonKey cur q := by
        rintro ⟨q, hq, hkq⟩
        have hqp : q.id = p.id := canonKey_inj (by rw [← hkq, hk1])
        exact hpid (hqp ▸ List.mem_map_of_mem Product.id hq)
      rw [if_neg hcond, if_pos ⟨p, List.mem_cons_self _ _, hk1⟩]
      rw [hk1, hkey, hsims1,
        scoreAt_saveScore_self a b v sims (by rw [← hkey]; exact hp)]
      rw [← hkey, hsc]
      rfl
    · by_cases hk2 : ∃ q ∈ ps, k = canonKey cur q
      · obtain ⟨q, hq, hkq⟩ := hk2
        rw [if_pos ⟨q, hq, hkq⟩, if_pos ⟨q, List.mem_cons_of_mem _ hq, hkq⟩]
        rw [hsims1, scoreAt_saveScore_ne a b v sims (by rw [← hkey] at *; exact hk1 ·)]
      · have hcond : ¬ ∃ q ∈ p :: ps, k = canonKey cur q := by
          rintro ⟨q, hq, hkq⟩
          rcases List.mem_cons.mp hq with he | hq'
          · exact hk1 (he ▸ hkq)
          · exact hk2 ⟨q, hq', hkq⟩
        rw [if_neg hk2, if_neg hcond]
        rw [hsims1, scoreAt_saveScore_ne a b v sims (by rw [← hkey] at *; exact hk1 ·)]

/-! ### Unfolding lemmas for the feedback view -/

theorem getProductByPk_id {products : List Product} {pk : Nat} {p : Product}
    (h : getProductByPk products pk = some p) : p.id = pk := by
  have hp := List.find?_some h
  simpa using hp

theorem getProductByPk_mem {products : List Product} {pk : Nat} {p : Product}
    (h : getProductByPk products pk = some p) : p ∈ products :=
  List.mem_of_find?_eq_some h

theorem post_cur_none {products : List Product} {sims : List ProductSimilarity}
    {cur_id clicked_id : Nat} {other_ids : List Nat}
    (h : getProductByPk products cur_id = none) :
    updateSimilarityPost products sims cur_id clicked_id other_ids =
      (sims, Except.error ViewError.productNotFound) := by
  simp [updateSimilarityPost, h]

theorem post_clicked_none {products : List Product} {sims : List ProductSimilarity}
    {cur_id clicked_id : Nat} {other_ids : List Nat} {cur : Product}
    (hc : getProductByPk products cur_id = some cur)
    (h : getProductByPk products clicked_id = none) :
    updateSimilarityPost products sims cur_id clicked_id other_ids =
      (sims, Except.error ViewError.productNotFound) := by
  simp [updateSimilarityPost, hc, h]

theorem post_sim_none {products : List Product} {sims : List ProductSimilarity}
    {cur_id clicked_id : Nat} {other_ids : List Nat} {cur clicked : Product}
    (hc : getProductByPk products cur_id = some cur)
    (hk : getProductByPk products clicked_id = some clicked)
    (h : get_similarity_object cur clicked sims = none) :
    updateSimilarityPost products sims cur_id clicked_id other_ids =
      (sims, Except.error ViewError.simNotFound) := by
  simp [updateSimilarityPost, hc, hk, h]

theorem post_some {products : List Product} {sims : List ProductSimilarity}
    {cur_id clicked_id : Nat} {other_ids : List Nat} {cur clicked : Product}
    {s0 : ProductSimilarity}
    (hc : getProductByPk products cur_id = some cur)
    (hk : getProductByPk products clicked_id = some clicked)
    (h : get_similarity_object cur clicked sims = some s0) :
    updateSimilarityPost products sims cur_id clicked_id other_ids =
      decrLoop cur (products.filter (fun p => other_ids.contains p.id))
        (saveScore (canonicalPair cur clicked).1 (canonicalPair cur clicked).2
          (min (s0.score + 0.1) 1.0) sims) := by
  simp [updateSimilarityPost, hc, hk, h]

/-- Claim C1: for every feedback call whose products resolve and whose pair
records are all present, the record for (current, clicked) gets
`score' = min(score + 0.1, 1.0)`, each record for (current, unclicked)
gets `score' = max(score - 0.05, 0.0)`, every other record is unchanged;
in particular a clicked-pair score of 0.95 becomes exactly 1.0, and all
updated scores stay within [0.0, 1.0] when the initial ones do. -/
theorem feedback_scores (products : List Product) (sims : List ProductSimilarity)
    (cur_id clicked_id : Nat) (other_ids : List Nat)
    (cur clicked : Product) (s0 : ProductSimilarity)
    (hcur : getProductByPk products cur_id = some cur)
    (hclk : getProductByPk products clicked_id = some clicked)
    (hrec : get_similarity_object cur clicked sims = some s0)
    (hoth : ∀ p ∈ products.filter (fun p => other_ids.contains p.id),
      (scoreAt sims (canonKey cur p)).isSome = true)
    (hnd : (products.map Product.id).Nodup)
    (hcl : clicked_id ∉ other_ids) :
    (updateSimilarityPost products sims cur_id clicked_id other_ids).2 = Except.ok () ∧
    scoreAt (updateSimilarityPost products sims cur_id clicked_id other_ids).1
        (canonKey cur clicked) = some (min (s0.score + 0.1) 1.0) ∧
    (s0.score = 0.95 →
      scoreAt (updateSimilarityPost products sims cur_id clicked_id other_ids).1
        (canonKey cur clicked) = some 1) ∧
    (∀ p ∈ products.filter (fun p => other_ids.contains p.id),
      scoreAt (updateSimilarityPost products sims cur_id clicked_id other_ids).1
          (canonKey cur p)
        = (scoreAt sims (canonKey cur p)).map (fun x => max (x - 0.05) 0.0)) ∧
    (∀ k, k ≠ canonKey cur clicked →
      (∀ p ∈ products.filter (fun p => other_ids.contains p.id), k ≠ canonKey cur p) →
      scoreAt (updateSimilarityPost products sims cur_id clicked_id other_ids).1 k
        = scoreAt sims k) ∧
    ((∀ r ∈ sims, 0 ≤ r.score ∧ r.score ≤ 1) →
      ∀ r ∈ (updateSimilarityPost products sims cur_id clicked_id other_ids).1,
        0 ≤ r.score ∧ r.score ≤ 1) := by
  have hclkid : clicked.id = clicked_id := getProductByPk_id hclk
  set others := products.filter (fun p => other_ids.contains p.id) with ho
  set a := (canonicalPair cur clicked).1 with ha
  set b := (canonicalPair cur clicked).2 with hb
  have hkey : canonKey cur clicked = (a.id, b.id) := rfl
  set v : ℚ := min (s0.score + 0.1) 1.0 with hv
  set sims1 := saveScore a b v sims with hsims1
  have hpost : updateSimilarityPost products sims cur_id clicked_id other_ids =
      decrLoop cur others sims1 := post_some hcur hclk hrec
  have hrecSome : (scoreAt sims (canonKey cur clicked)).isSome = true := by
    rw [← gso_isSome_iff, hrec]
    rfl
  have hex1 : ∀ p ∈ others, (scoreAt sims1 (canonKey cur p)).isSome = true := by
    intro p hp
    rw [hsims1, scoreAt_saveScore_isSome]
    exact hoth p hp
  have hndo : (others.map Product.id).Nodup := by
    refine List.Nodup.sublist ?_ hnd
    exact List.Sublist.map Product.id (List.filter_sublist products)
  obtain ⟨dok, dsc⟩ := decrLoop_spec cur others sims1 hex1 hndo
  have hck : ∀ p ∈ others, canonKey cur clicked ≠ canonKey cur p := by
    intro p hp heq
    have hpq : clicked.id = p.id := canonKey_inj heq
    have hpids : p.id ∈ other_ids := by
      have hf := List.of_mem_filter hp
      simpa using hf
    rw [← hpq, hclkid] at hpids
    exact hcl hpids
  have conj2 : scoreAt (updateSimilarityPost products sims cur_id clicked_id other_ids).1
      (canonKey cur clicked) = some v := by
    rw [hpost, dsc]
    rw [if_neg (by rintro ⟨p, hp, hkp⟩; exact hck p hp hkp)]
    rw [hkey, hsims1, scoreAt_saveScore_self a b v sims (by rw [← hkey]; exact hrecSome)]
  refine ⟨by rw [hpost]; exact dok, conj2, ?_, ?_, ?_, ?_⟩
  · intro h95
    rw [conj2, hv, h95]
    norm_num
  · intro p hp
    rw [hpost, dsc]
    rw [if_pos ⟨p, hp, rfl⟩]
    rw [hsims1,
      scoreAt_saveScore_ne a b v sims (by rw [← hkey]; exact fun he => hck p hp he.symm)]
  · intro k hk1 hk2
    rw [hpost, dsc]
    rw [if_neg (by rintro ⟨p, hp, hkp⟩; exact hk2 p hp hkp)]
    rw [hsims1, scoreAt_saveScore_ne a b v sims (by rw [← hkey]; exact hk1)]
  · intro hbnd
    rw [hpost]
    refine decrLoop_bounds (saveScore_mem_bound (P := fun x => 0 ≤ x ∧ x ≤ 1) hbnd ?_)
    have hs0 := hbnd s0 (gso_mem hrec)
    constructor
    · rw [hv, le_min_iff]
      constructor
      · linarith [hs0.1]
      · norm_num
    · rw [hv]
      refine le_trans (min_le_right _ _) ?_
      norm_num

/-- Witness for C1 at a concrete catalog. -/
theorem feedback_scores_witness :
    (updateSimilarityPost [⟨1⟩, ⟨2⟩, ⟨3⟩]
        [⟨⟨1⟩, ⟨2⟩, 0.5⟩, ⟨⟨1⟩, ⟨3⟩, 0.5⟩] 1 2 [3]).2 = Except.ok () ∧
    scoreAt (updateSimilarityPost [⟨1⟩, ⟨2⟩, ⟨3⟩]
        [⟨⟨1⟩, ⟨2⟩, 0.5⟩, ⟨⟨1⟩, ⟨3⟩, 0.5⟩] 1 2 [3]).1 (canonKey ⟨1⟩ ⟨2⟩)
      = some (min ((0.5 : ℚ) + 0.1) 1.0) := by
  have h := feedback_scores [⟨1⟩, ⟨2⟩, ⟨3⟩] [⟨⟨1⟩, ⟨2⟩, 0.5⟩, ⟨⟨1⟩, ⟨3⟩, 0.5⟩]
    1 2 [3] ⟨1⟩ ⟨2⟩ ⟨⟨1⟩, ⟨2⟩, 0.5⟩ rfl rfl rfl
    (by decide) (by decide) (by decide)
  exact ⟨h.1, h.2.1⟩

/-! ### Lemmas about the creation paths -/

theorem natCanonKey_of_le {a b : Nat} (h : a ≤ b) : natCanonKey a b = (a, b) := by
  unfold natCanonKey
  split
  · rfl
  · have he : a = b := by omega
    rw [he]

theorem any_simMatches_iff {a b : Product} {sims : List ProductSimilarity} :
    sims.any (simMatches a b) = true ↔ (a.id, b.id) ∈ sims.map simKey := by
  rw [List.any_eq_true]
  constructor
  · rintro ⟨s, hs, hm⟩
    exact List.mem_map.mpr ⟨s, hs, simMatches_iff.mp hm⟩
  · intro hm
    rcases List.mem_map.mp hm with ⟨s, hs, hk⟩
    exact ⟨s, hs, simMatches_iff.mpr hk⟩

theorem createSim_fresh {a b : Product} (sc : ℚ) {sims : List ProductSimilarity}
    (h : natCanonKey a.id b.id ∉ sims.map simKey) :
    createSim a b sc sims =
      Except.ok (sims ++ [ProductSimilarity.normalize ⟨a, b, sc⟩]) := by
  unfold createSim
  have hkey : simKey (ProductSimilarity.normalize ⟨a, b, sc⟩) = natCanonKey a.id b.id :=
    simKey_normalize a b sc
  have hany : ¬ sims.any (simMatches (ProductSimilarity.normalize ⟨a, b, sc⟩).product_a
      (ProductSimilarity.normalize ⟨a, b, sc⟩).product_b) = true := by
    intro hc
    rcases List.any_eq_true.mp hc with ⟨s, hs, hm⟩
    have hk := simMatches_iff.mp hm
    have : simKey s = natCanonKey a.id b.id := by rw [hk, ← hkey]; rfl
    exact h (this ▸ List.mem_map_of_mem simKey hs)
  simp only [Bool.not_eq_true] at hany
  simp [hany]

theorem get_or_create_fresh {a b : Product} (sc : ℚ) {sims : List ProductSimilarity}
    (h : (a.id, b.id) ∉ sims.map simKey) (hab : a.id ≤ b.id) :
    get_or_create a b sc sims = Except.ok (sims ++ [⟨a, b, sc⟩], true) := by
  unfold get_or_create
  have hf : sims.find? (fun s => simMatches a b s && decide (s.score = sc)) = none := by
    rw [List.find?_eq_none]
    intro s hs
    intro hc
    rw [Bool.and_eq_true] at hc
    exact h ((simMatches_iff.mp hc.1) ▸ List.mem_map_of_mem simKey hs)
  rw [hf]
  have hkey := natCanonKey_of_le hab
  rw [createSim_fresh sc (by rw [hkey]; exact h), normalize_of_le sc hab]

theorem get_or_create_ok_cases {a b : Product} {sc : ℚ}
    {sims sims2 : List ProductSimilarity} {w : Bool}
    (h : get_or_create a b sc sims = Except.ok (sims2, w)) :
    sims2 = sims ∨ sims2 = sims ++ [ProductSimilarity.normalize ⟨a, b, sc⟩] := by
  unfold get_or_create at h
  cases hf : sims.find? (fun s => simMatches a b s && decide (s.score = sc)) with
  | some s =>
    rw [hf] at h
    left
    injection h with h2
    injection h2 with h3
    exact h3.symm
  | none =>
    rw [hf] at h
    unfold createSim at h
    by_cases hany : sims.any (simMatches (ProductSimilarity.normalize ⟨a, b, sc⟩).product_a
        (ProductSimilarity.normalize ⟨a, b, sc⟩).product_b) = true
    · simp [hany] at h
    · simp only [Bool.not_eq_true] at hany
      simp [hany] at h
      right
      exact h.1.symm

/-! ### Lemmas about `combinations2` -/

theorem combinations2_length (l : List Product) :
    (combinations2 l).length = Nat.choose l.length 2 := by
  induction l with
  | nil => rfl
  | cons x xs ih =>
    simp only [combinations2, List.length_append, List.length_map, ih, List.length_cons]
    rw [Nat.choose_succ_succ, Nat.choose_one_right]

theorem combinations2_mem {l : List Product} {pq : Product × Product}
    (h : pq ∈ combinations2 l) : pq.1 ∈ l ∧ pq.2 ∈ l := by
  induction l with
  | nil => simp [combinations2] at h
  | cons x xs ih =>
    simp only [combinations2, List.mem_append, List.mem_map] at h
    rcases h with ⟨y, hy, he⟩ | h
    · rw [← he]
      exact ⟨List.mem_cons_self _ _, List.mem_cons_of_mem _ hy⟩
    · rcases ih h with ⟨h1, h2⟩
      exact ⟨List.mem_cons_of_mem _ h1, List.mem_cons_of_mem _ h2⟩

theorem combinations2_distinct {l : List Product} (hnd : (l.map Product.id).Nodup) :
    ∀ pq ∈ combinations2 l, pq.1.id ≠ pq.2.id := by
  induction l with
  | nil => simp [combinations2]
  | cons x xs ih =>
    rw [List.map_cons, List.nodup_cons] at hnd
    have hx : x.id ∉ xs.map Product.id := hnd.1
    have hxs : (xs.map Product.id).Nodup := hnd.2
    intro pq hpq
    simp only [combinations2, List.mem_append, List.mem_map] at hpq
    rcases hpq with ⟨y, hy, he⟩ | h
    · rw [← he]
      intro heq
      exact hx (heq ▸ List.mem_map_of_mem Product.id hy)
    · exact ih hxs pq h

theorem Product.ext_id {p q : Product} (h : p.id = q.id) : p = q := by
  cases p
  cases q
  simpa using h

theorem combinations2_keys_nodup {l : List Product} (hnd : (l.map Product.id).Nodup) :
    ((combinations2 l).map (fun pq => canonKey pq.1 pq.2)).Nodup := by
  induction l with
  | nil => simp [combinations2]
  | cons x xs ih =>
    rw [List.map_cons, List.nodup_cons] at hnd
    have hx : x.id ∉ xs.map Product.id := hnd.1
    have hxs : (xs.map Product.id).Nodup := hnd.2
    simp only [combinations2, List.map_append, List.map_map]
    rw [List.nodup_append]
    refine ⟨?_, ih hxs, ?_⟩
    · refine List.Nodup.map ?_ (List.Nodup.of_map Product.id hxs)
      intro y z hyz
      exact Product.ext_id (canonKey_inj (by simpa using hyz))
    · intro k hk1 hk2
      rcases List.mem_map.mp hk1 with ⟨y, hy, hky⟩
      rcases List.mem_map.mp hk2 with ⟨pq, hpq, hkpq⟩
      have hpm := combinations2_mem hpq
      have h1 : pq.1.id ∈ xs.map Product.id := List.mem_map_of_mem Product.id hpm.1
      have h2 : pq.2.id ∈ xs.map Product.id := List.mem_map_of_mem Product.id hpm.2
      have hkxy : k = natCanonKey x.id y.id := by
        rw [← hky]
        simp [canonKey_eq]
      have hkpq2 : k = natCanonKey pq.1.id pq.2.id := by
        rw [← hkpq]
        simp [canonKey_eq]
      have hkk : natCanonKey x.id y.id = natCanonKey pq.1.id pq.2.id := by
        rw [← hkxy, hkpq2]
      have hxor : x.id = pq.1.id ∨ x.id = pq.2.id := by
        unfold natCanonKey at hkk
        split at hkk <;> split at hkk <;> simp [Prod.ext_iff] at hkk <;> omega
      rcases hxor with he | he
      · exact hx (by rw [he]; exact h1)
      · exact hx (by rw [he]; exact h2)

/-! ### Lemmas about the `init_similarities` pair loop -/

theorem handleGo_nil (sims : List ProductSimilarity) (t c : Nat) :
    handleGo [] sims t c = (sims, Except.ok (t, c)) := rfl

theorem handleGo_cons_error {prod1 prod2 : Product} {sims : List ProductSimilarity}
    {e : Unit} (rest : List (Product × Product)) (t c : Nat)
    (h : get_or_create (canonicalPair prod1 prod2).1 (canonicalPair prod1 prod2).2
      0.5 sims = Except.error e) :
    handleGo ((prod1, prod2) :: rest) sims t c = (sims, Except.error e) := by
  simp [handleGo, h]

theorem handleGo_cons_ok {prod1 prod2 : Product} {sims sims2 : List ProductSimilarity}
    {w : Bool} (rest : List (Product × Product)) (t c : Nat)
    (h : get_or_create (canonicalPair prod1 prod2).1 (canonicalPair prod1 prod2).2
      0.5 sims = Except.ok (sims2, w)) :
    handleGo ((prod1, prod2) :: rest) sims t c =
      handleGo rest sims2 (t + 1) (c + if w then 1 else 0) := by
  simp [handleGo, h]

theorem handleGo_fresh (P : List (Product × Product)) (sims : List ProductSimilarity)
    (t c : Nat)
    (hkeys : (P.map (fun pq => canonKey pq.1 pq.2)).Nodup)
    (habs : ∀ pq ∈ P, canonKey pq.1 pq.2 ∉ sims.map simKey) :
    handleGo P sims t c =
      (sims ++ P.map (fun pq => canonRow pq.1 pq.2 0.5),
        Except.ok (t + P.length, c + P.length)) := by
  induction P generalizing sims t c with
  | nil => simp [handleGo_nil]
  | cons pq rest ih =>
    obtain ⟨prod1, prod2⟩ := pq
    have hko : canonKey prod1 prod2 =
        ((canonicalPair prod1 prod2).1.id, (canonicalPair prod1 prod2).2.id) := rfl
    have hle := canonicalPair_le prod1 prod2
    have habs0 := habs (prod1, prod2) (List.mem_cons_self _ _)
    set row : ProductSimilarity :=
      ⟨(canonicalPair prod1 prod2).1, (canonicalPair prod1 prod2).2, 0.5⟩ with hrd
    have hg : get_or_create (canonicalPair prod1 prod2).1 (canonicalPair prod1 prod2).2
        0.5 sims = Except.ok (sims ++ [row], true) :=
      get_or_create_fresh 0.5 (by rw [← hko]; exact habs0) hle
    rw [handleGo_cons_ok rest t c hg]
    rw [List.map_cons, List.nodup_cons] at hkeys
    have hrow : simKey row = canonKey prod1 prod2 := rfl
    have habs1 : ∀ pq' ∈ rest, canonKey pq'.1 pq'.2 ∉ (sims ++ [row]).map simKey := by
      intro pq' hpq'
      rw [List.map_append]
      intro hmem
      rcases List.mem_append.mp hmem with hm | hm
      · exact habs pq' (List.mem_cons_of_mem _ hpq') hm
      · simp only [List.map_cons, List.map_nil, List.mem_singleton] at hm
        rw [hrow] at hm
        exact hkeys.1 (hm ▸ List.mem_map_of_mem (fun x => canonKey x.1 x.2) hpq')
    rw [ih _ _ _ hkeys.2 habs1]
    have hcrow : canonRow prod1 prod2 0.5 = row := rfl
    refine Prod.ext ?_ ?_
    · simp only [List.map_cons, hcrow, List.append_assoc, List.singleton_append]
    · simp only [List.length_cons, List.length_map, if_pos]
      have h1 : t + 1 + rest.length = t + (rest.length + 1) := by omega
      have h2 : c + 1 + rest.length = c + (rest.length + 1) := by omega
      rw [h1, h2]

theorem handleGo_canonicalInv {P : List (Product × Product)}
    {sims : List ProductSimilarity} {t c : Nat}
    (hdist : ∀ pq ∈ P, pq.1.id ≠ pq.2.id)
    (hinv : canonicalInv sims) :
    canonicalInv (handleGo P sims t c).1 := by
  induction P generalizing sims t c with
  | nil => exact hinv
  | cons pq rest ih =>
    obtain ⟨prod1, prod2⟩ := pq
    cases hg : get_or_create (canonicalPair prod1 prod2).1 (canonicalPair prod1 prod2).2
        0.5 sims with
    | error e =>
      rw [handleGo_cons_error rest t c hg]
      exact hinv
    | ok sw =>
      obtain ⟨sims2, w⟩ := sw
      rw [handleGo_cons_ok rest t c hg]
      refine ih (fun x hx => hdist x (List.mem_cons_of_mem _ hx)) ?_
      rcases get_or_create_ok_cases hg with he | he
      · rw [he]
        exact hinv
      · rw [he]
        intro s hs
        rcases List.mem_append.mp hs with hm | hm
        · exact hinv s hm
        · rw [List.mem_singleton.mp hm]
          rw [normalize_of_le 0.5 (canonicalPair_le prod1 prod2)]
          exact canonicalPair_lt (hdist (prod1, prod2) (List.mem_cons_self _ _))

/-! ### Lemmas about the creation loop of `CreateProductView` -/

theorem createLinkLoop_nil (new : Product) (sims : List ProductSimilarity) :
    createLinkLoop new [] sims = (sims, Except.ok ()) := rfl

theorem createLinkLoop_cons_error {new p : Product} {sims : List ProductSimilarity}
    {e : Unit} (ps : List Product)
    (h : createSim (canonicalPair new p).1 (canonicalPair new p).2 0.5 sims =
      Except.error e) :
    createLinkLoop new (p :: ps) sims = (sims, Except.error e) := by
  simp [createLinkLoop, h]

theorem createLinkLoop_cons_ok {new p : Product} {sims sims2 : List ProductSimilarity}
    (ps : List Product)
    (h : createSim (canonicalPair new p).1 (canonicalPair new p).2 0.5 sims =
      Except.ok sims2) :
    createLinkLoop new (p :: ps) sims = createLinkLoop new ps sims2 := by
  simp [createLinkLoop, h]

theorem createLinkLoop_fresh (new : Product) (ps : List Product)
    (sims : List ProductSimilarity)
    (hnd : (ps.map Product.id).Nodup)
    (habs : ∀ p ∈ ps, canonKey new p ∉ sims.map simKey) :
    createLinkLoop new ps sims =
      (sims ++ ps.map (fun p => canonRow new p 0.5), Except.ok ()) := by
  induction ps generalizing sims with
  | nil => simp [createLinkLoop_nil]
  | cons p rest ih =>
    have hko : canonKey new p =
        ((canonicalPair new p).1.id, (canonicalPair new p).2.id) := rfl
    have hle := canonicalPair_le new p
    have habs0 := habs p (List.mem_cons_self _ _)
    have hkey2 : natCanonKey (canonicalPair new p).1.id (canonicalPair new p).2.id
        = canonKey new p := by
      rw [natCanonKey_of_le hle, hko]
    set row : ProductSimilarity :=
      ⟨(canonicalPair new p).1, (canonicalPair new p).2, 0.5⟩ with hrd
    have hc : createSim (canonicalPair new p).1 (canonicalPair new p).2 0.5 sims =
        Except.ok (sims ++ [row]) := by
      rw [createSim_fresh 0.5 (by rw [hkey2]; exact habs0), normalize_of_le 0.5 hle]
    rw [createLinkLoop_cons_ok rest hc]
    rw [List.map_cons, List.nodup_cons] at hnd
    have hrow : simKey row = canonKey new p := rfl
    have habs1 : ∀ q ∈ rest, canonKey new q ∉ (sims ++ [row]).map simKey := by
      intro q hq
      rw [List.map_append]
      intro hmem
      rcases List.mem_append.mp hmem with hm | hm
      · exact habs q (List.mem_cons_of_mem _ hq) hm
      · simp only [List.map_cons, List.map_nil, List.mem_singleton] at hm
        rw [hrow] at hm
        have hqp : q.id = p.id := canonKey_inj hm
        exact hnd.1 (hqp ▸ List.mem_map_of_mem Product.id hq)
    rw [ih _ hnd.2 habs1]
    have hcrow : canonRow new p 0.5 = row := rfl
    simp only [List.map_cons, hcrow, List.append_assoc, List.singleton_append]


/-! ### Structural preservation lemmas for the three entry points -/

theorem post_map_simKey (products : List Product) (sims : List ProductSimilarity)
    (cur_id clicked_id : Nat) (other_ids : List Nat) :
    ((updateSimilarityPost products sims cur_id clicked_id other_ids).1).map simKey
      = sims.map simKey := by
  cases h1 : getProductByPk products cur_id with
  | none => rw [post_cur_none h1]
  | some cur =>
    cases h2 : getProductByPk products clicked_id with
    | none => rw [post_clicked_none h1 h2]
    | some clicked =>
      cases h3 : get_similarity_object cur clicked sims with
      | none => rw [post_sim_none h1 h2 h3]
      | some s0 =>
        rw [post_some h1 h2 h3, decrLoop_map_simKey, saveScore_map_simKey]

theorem post_canonicalInv (products : List Product) (sims : List ProductSimilarity)
    (cur_id clicked_id : Nat) (other_ids : List Nat) (hinv : canonicalInv sims) :
    canonicalInv (updateSimilarityPost products sims cur_id clicked_id other_ids).1 := by
  cases h1 : getProductByPk products cur_id with
  | none =>
    rw [post_cur_none h1]
    exact hinv
  | some cur =>
    cases h2 : getProductByPk products clicked_id with
    | none =>
      rw [post_clicked_none h1 h2]
      exact hinv
    | some clicked =>
      cases h3 : get_similarity_object cur clicked sims with
      | none =>
        rw [post_sim_none h1 h2 h3]
        exact hinv
      | some s0 =>
        rw [post_some h1 h2 h3]
        exact decrLoop_canonicalInv (saveScore_canonicalInv hinv)

theorem createSim_ok_cases {a b : Product} {sc : ℚ} {sims sims2 : List ProductSimilarity}
    (h : createSim a b sc sims = Except.ok sims2) :
    sims2 = sims ++ [ProductSimilarity.normalize ⟨a, b, sc⟩] := by
  unfold createSim at h
  by_cases hany : sims.any (simMatches (ProductSimilarity.normalize ⟨a, b, sc⟩).product_a
      (ProductSimilarity.normalize ⟨a, b, sc⟩).product_b) = true
  · simp [hany] at h
  · simp only [Bool.not_eq_true] at hany
    simp [hany] at h
    exact h.symm

theorem createLinkLoop_canonicalInv {new : Product} {ps : List Product}
    {sims : List ProductSimilarity}
    (hids : ∀ p ∈ ps, p.id ≠ new.id)
    (hinv : canonicalInv sims) :
    canonicalInv (createLinkLoop new ps sims).1 := by
  induction ps generalizing sims with
  | nil => exact hinv
  | cons p rest ih =>
    cases hc : createSim (canonicalPair new p).1 (canonicalPair new p).2 0.5 sims with
    | error e =>
      rw [createLinkLoop_cons_error rest hc]
      exact hinv
    | ok sims2 =>
      rw [createLinkLoop_cons_ok rest hc]
      refine ih (fun q hq => hids q (List.mem_cons_of_mem _ hq)) ?_
      rw [createSim_ok_cases hc]
      intro s hs
      rcases List.mem_append.mp hs with hm | hm
      · exact hinv s hm
      · rw [List.mem_singleton.mp hm, normalize_of_le 0.5 (canonicalPair_le new p)]
        exact canonicalPair_lt (fun he => hids p (List.mem_cons_self _ _) he.symm)

theorem createProductLinkage_canonicalInv {new : Product} {products : List Product}
    {sims : List ProductSimilarity} (hinv : canonicalInv sims) :
    canonicalInv (createProductLinkage new products sims).1 := by
  unfold createProductLinkage
  refine createLinkLoop_canonicalInv ?_ hinv
  intro p hp
  have hf := List.of_mem_filter hp
  simpa using hf

theorem handle_canonicalInv {products : List Product} {sims : List ProductSimilarity}
    (hnd : (products.map Product.id).Nodup) (hinv : canonicalInv sims) :
    canonicalInv (handle products sims).1 :=
  handleGo_canonicalInv (combinations2_distinct hnd) hinv



theorem post_congr_filter (products : List Product) (sims : List ProductSimilarity)
    (cur_id clicked_id : Nat) {ids1 ids2 : List Nat}
    (h : products.filter (fun p => ids1.contains p.id)
       = products.filter (fun p => ids2.contains p.id)) :
    updateSimilarityPost products sims cur_id clicked_id ids1 =
      updateSimilarityPost products sims cur_id clicked_id ids2 := by
  cases h1 : getProductByPk products cur_id with
  | none => rw [post_cur_none h1, post_cur_none h1]
  | some cur =>
    cases h2 : getProductByPk products clicked_id with
    | none => rw [post_clicked_none h1 h2, post_clicked_none h1 h2]
    | some clicked =>
      cases h3 : get_similarity_object cur clicked sims with
      | none => rw [post_sim_none h1 h2 h3, post_sim_none h1 h2 h3]
      | some s0 => rw [post_some h1 h2 h3, post_some h1 h2 h3, h]

/-! ### Claim theorems -/

/-- Claim C2: the save path canonicalizes every record — for P ≠ Q the persisted
orientation is (min id, max id) — and the canonical-ordering invariant
(`product_a.id < product_b.id` for every stored row) is preserved by every
operation: the feedback view, the bulk initializer, and the new-product linkage. -/
theorem canonical_ordering :
    (∀ (P Q : Product) (sc : ℚ), P.id ≠ Q.id →
      (ProductSimilarity.normalize ⟨P, Q, sc⟩).product_a.id = min P.id Q.id ∧
      (ProductSimilarity.normalize ⟨P, Q, sc⟩).product_b.id = max P.id Q.id) ∧
    (∀ (products : List Product) (sims : List ProductSimilarity)
      (cur_id clicked_id : Nat) (other_ids : List Nat), canonicalInv sims →
      canonicalInv (updateSimilarityPost products sims cur_id clicked_id other_ids).1) ∧
    (∀ (products : List Product) (sims : List ProductSimilarity),
      (products.map Product.id).Nodup → canonicalInv sims →
      canonicalInv (handle products sims).1) ∧
    (∀ (new : Product) (products : List Product) (sims : List ProductSimilarity),
      canonicalInv sims →
      canonicalInv (createProductLinkage new products sims).1) := by
  refine ⟨?_, ?_, ?_, ?_⟩
  · intro P Q sc hne
    constructor
    · unfold ProductSimilarity.normalize
      split <;> dsimp only at * <;> omega
    · unfold ProductSimilarity.normalize
      split <;> dsimp only at * <;> omega
  · intro products sims cur_id clicked_id other_ids hinv
    exact post_canonicalInv products sims cur_id clicked_id other_ids hinv
  · intro products sims hnd hinv
    exact handle_canonicalInv hnd hinv
  · intro new products sims hinv
    exact createProductLinkage_canonicalInv hinv

/-- Witness for C2 at concrete inputs. -/
theorem canonical_ordering_witness :
    ((ProductSimilarity.normalize ⟨⟨2⟩, ⟨1⟩, 0.5⟩).product_a.id = min 2 1 ∧
     (ProductSimilarity.normalize ⟨⟨2⟩, ⟨1⟩, 0.5⟩).product_b.id = max 2 1) ∧
    canonicalInv (handle [⟨1⟩, ⟨2⟩] []).1 := by
  constructor
  · exact canonical_ordering.1 ⟨2⟩ ⟨1⟩ 0.5 (by decide)
  · exact canonical_ordering.2.2.1 [⟨1⟩, ⟨2⟩] [] (by decide)
      (by intro s hs; cases hs)

/-- Claim C3 (code bug): `get_or_create` passes `score=0.5` as a lookup kwarg, so
re-running init over a record whose score has drifted from the default misses it,
attempts a duplicate insert and dies on the uniqueness constraint — while a record
still at the default score is found and correctly skipped (zero creations). -/
theorem init_rerun_nondefault_crash :
    handle [⟨1⟩, ⟨2⟩] [⟨⟨1⟩, ⟨2⟩, 0.7⟩] = ([⟨⟨1⟩, ⟨2⟩, 0.7⟩], Except.error ()) ∧
    handle [⟨1⟩, ⟨2⟩] [⟨⟨1⟩, ⟨2⟩, 0.5⟩] = ([⟨⟨1⟩, ⟨2⟩, 0.5⟩], Except.ok (1, 0)) := by
  constructor
  · with_unfolding_all rfl
  · with_unfolding_all rfl

/-- Counterexample to C4 as stated: a feedback call errors on a missing unclicked
pair record, yet the clicked pair's score was already incremented and persisted. -/
theorem feedback_partial_application_counterexample :
    updateSimilarityPost [⟨1⟩, ⟨2⟩, ⟨3⟩] [⟨⟨1⟩, ⟨2⟩, 0.5⟩] 1 2 [3] =
      ([⟨⟨1⟩, ⟨2⟩, 0.6⟩], Except.error ViewError.simNotFound) ∧
    (0.6 : ℚ) ≠ 0.5 := by
  constructor
  · with_unfolding_all rfl
  · norm_num

/-- Claim C4 (amended): each adjustment fails with NotFound when its pair record
is missing and the view never creates or deletes records; but the call is not
atomic — updates commit one by one, so when the clicked pair is missing nothing
is modified, while a missing unclicked pair leaves the already-committed clicked
increment persisted as the call errors. -/
theorem feedback_not_atomic :
    (∀ (products : List Product) (sims : List ProductSimilarity)
      (cur_id clicked_id : Nat) (other_ids : List Nat),
      ((updateSimilarityPost products sims cur_id clicked_id other_ids).1).map simKey
        = sims.map simKey) ∧
    (∀ (products : List Product) (sims : List ProductSimilarity)
      (cur_id clicked_id : Nat) (other_ids : List Nat) (cur clicked : Product),
      getProductByPk products cur_id = some cur →
      getProductByPk products clicked_id = some clicked →
      get_similarity_object cur clicked sims = none →
      updateSimilarityPost products sims cur_id clicked_id other_ids =
        (sims, Except.error ViewError.simNotFound)) ∧
    (∀ (products : List Product) (sims : List ProductSimilarity)
      (cur_id clicked_id : Nat) (other_ids : List Nat) (cur clicked : Product)
      (s0 : ProductSimilarity) (p : Product) (rest : List Product),
      getProductByPk products cur_id = some cur →
      getProductByPk products clicked_id = some clicked →
      get_similarity_object cur clicked sims = some s0 →
      products.filter (fun q => other_ids.contains q.id) = p :: rest →
      get_similarity_object cur p
        (saveScore (canonicalPair cur clicked).1 (canonicalPair cur clicked).2
          (min (s0.score + 0.1) 1.0) sims) = none →
      updateSimilarityPost products sims cur_id clicked_id other_ids =
        (saveScore (canonicalPair cur clicked).1 (canonicalPair cur clicked).2
          (min (s0.score + 0.1) 1.0) sims,
         Except.error ViewError.simNotFound)) := by
  refine ⟨post_map_simKey, ?_, ?_⟩
  · intro products sims cur_id clicked_id other_ids cur clicked h1 h2 h3
    exact post_sim_none h1 h2 h3
  · intro products sims cur_id clicked_id other_ids cur clicked s0 p rest h1 h2 h3 hf hm
    rw [post_some h1 h2 h3, hf, decrLoop_cons_none rest hm]

/-- Witness for the amended C4 at a concrete catalog. -/
theorem feedback_not_atomic_witness :
    updateSimilarityPost [⟨1⟩, ⟨2⟩, ⟨3⟩] [⟨⟨1⟩, ⟨2⟩, 0.5⟩] 1 2 [3] =
      (saveScore (canonicalPair ⟨1⟩ ⟨2⟩).1 (canonicalPair ⟨1⟩ ⟨2⟩).2
        (min ((0.5 : ℚ) + 0.1) 1.0) [⟨⟨1⟩, ⟨2⟩, 0.5⟩],
       Except.error ViewError.simNotFound) := by
  exact feedback_not_atomic.2.2 [⟨1⟩, ⟨2⟩, ⟨3⟩] [⟨⟨1⟩, ⟨2⟩, 0.5⟩] 1 2 [3] ⟨1⟩ ⟨2⟩
    ⟨⟨1⟩, ⟨2⟩, 0.5⟩ ⟨3⟩ [] rfl rfl rfl (by with_unfolding_all rfl)
    (by with_unfolding_all rfl)

/-- Claim C5: recommend sorts the rows involving the product descending by score
(stably), takes at most 3, and maps each taken row to its member that is not the
query product; with fewer rows it returns fewer items, and on peer scores
[0.9, 0.3, 0.7, 0.5] it returns the peers scored [0.9, 0.7, 0.5] in order. -/
theorem recommend_spec :
    (∀ (product : Product) (sims : List ProductSimilarity),
      ∃ l, (findAllInvolving product sims).Perm l ∧ l.Sorted scoreGE ∧
        recommendations product sims = (l.take 3).map (resolveOther product) ∧
        (recommendations product sims).length
          = min 3 (findAllInvolving product sims).length) ∧
    recommendations ⟨1⟩ [⟨⟨1⟩, ⟨2⟩, 0.9⟩, ⟨⟨1⟩, ⟨3⟩, 0.3⟩, ⟨⟨1⟩, ⟨4⟩, 0.7⟩,
      ⟨⟨1⟩, ⟨5⟩, 0.5⟩] = [⟨2⟩, ⟨4⟩, ⟨5⟩] := by
  constructor
  · intro product sims
    refine ⟨(findAllInvolving product sims).insertionSort scoreGE, ?_, ?_, rfl, ?_⟩
    · exact (List.perm_insertionSort scoreGE _).symm
    · exact List.sorted_insertionSort scoreGE _
    · simp [recommendations, recommendRecords, List.length_take,
        List.length_insertionSort]
  · with_unfolding_all rfl


/-- Claim C6: on a catalog of N products with distinct ids and no prior records,
init creates exactly one canonical record per unordered pair of distinct products
— N*(N-1)/2 records, no repeats, no self-pairs, all at score 0.5 — and reports
total pairs processed and records created, both N*(N-1)/2. -/
theorem init_fresh_complete (products : List Product)
    (hnd : (products.map Product.id).Nodup) :
    handle products [] =
      ((combinations2 products).map (fun pq => canonRow pq.1 pq.2 0.5),
       Except.ok (products.length * (products.length - 1) / 2,
                  products.length * (products.length - 1) / 2)) ∧
    (handle products []).1.length = products.length * (products.length - 1) / 2 ∧
    (∀ s ∈ (handle products []).1, s.score = 0.5) ∧
    (∀ s ∈ (handle products []).1, s.product_a.id < s.product_b.id) ∧
    ((handle products []).1.map simKey).Nodup := by
  have hlen : (combinations2 products).length
      = products.length * (products.length - 1) / 2 := by
    rw [combinations2_length, Nat.choose_two_right]
  have hmain : handle products [] =
      ((combinations2 products).map (fun pq => canonRow pq.1 pq.2 0.5),
       Except.ok (products.length * (products.length - 1) / 2,
                  products.length * (products.length - 1) / 2)) := by
    unfold handle
    rw [handleGo_fresh (combinations2 products) [] 0 0
      (combinations2_keys_nodup hnd) (by simp)]
    rw [List.nil_append, Nat.zero_add, hlen]
  refine ⟨hmain, ?_, ?_, ?_, ?_⟩
  · rw [hmain]
    dsimp only
    rw [List.length_map, hlen]
  · rw [hmain]
    intro s hs
    dsimp only at hs
    rcases List.mem_map.mp hs with ⟨pq, hpq, he⟩
    rw [← he]
    rfl
  · rw [hmain]
    intro s hs
    dsimp only at hs
    rcases List.mem_map.mp hs with ⟨pq, hpq, he⟩
    rw [← he]
    exact canonicalPair_lt (combinations2_distinct hnd pq hpq)
  · rw [hmain]
    dsimp only
    rw [List.map_map]
    have hco : simKey ∘ (fun pq : Product × Product => canonRow pq.1 pq.2 0.5)
        = fun pq : Product × Product => canonKey pq.1 pq.2 := rfl
    rw [hco]
    exact combinations2_keys_nodup hnd

/-- Witness for C6 on a three-product catalog. -/
theorem init_fresh_complete_witness :
    handle [⟨1⟩, ⟨2⟩, ⟨3⟩] [] =
      ((combinations2 [⟨1⟩, ⟨2⟩, ⟨3⟩]).map (fun pq => canonRow pq.1 pq.2 0.5),
       Except.ok (3, 3)) :=
  (init_fresh_complete [⟨1⟩, ⟨2⟩, ⟨3⟩] (by decide)).1

/-- Claim C7: with M existing products (distinct ids), creating a product with a
fresh id and running the linkage loop appends exactly M new records — one per
existing product, each the canonical pairing of the new product with that product
at score 0.5, and none a self-pair. -/
theorem new_product_linkage (new : Product) (existing : List Product)
    (sims : List ProductSimilarity)
    (hnd : (existing.map Product.id).Nodup)
    (hfresh : new.id ∉ existing.map Product.id)
    (hnosim : ∀ s ∈ sims, s.product_a.id ≠ new.id ∧ s.product_b.id ≠ new.id) :
    createProductLinkage new (existing ++ [new]) sims =
      (sims ++ existing.map (fun p => canonRow new p 0.5), Except.ok ()) ∧
    (createProductLinkage new (existing ++ [new]) sims).1.length
      = sims.length + existing.length ∧
    (∀ p ∈ existing,
      ((canonRow new p 0.5).product_a = new ∧ (canonRow new p 0.5).product_b = p) ∨
      ((canonRow new p 0.5).product_a = p ∧ (canonRow new p 0.5).product_b = new)) ∧
    (∀ p ∈ existing, (canonRow new p 0.5).score = 0.5 ∧
      (canonRow new p 0.5).product_a.id ≠ (canonRow new p 0.5).product_b.id) := by
  have hne : ∀ p ∈ existing, p.id ≠ new.id := by
    intro p hp he
    exact hfresh (he ▸ List.mem_map_of_mem Product.id hp)
  have hfilter : (existing ++ [new]).filter (fun p => p.id != new.id) = existing := by
    rw [List.filter_append]
    have h1 : existing.filter (fun p => p.id != new.id) = existing :=
      List.filter_eq_self.mpr (fun p hp => by simpa using hne p hp)
    have h2 : [new].filter (fun p => p.id != new.id) = [] := by simp
    rw [h1, h2, List.append_nil]
  have habs : ∀ p ∈ existing, canonKey new p ∉ sims.map simKey := by
    intro p hp hmem
    rcases List.mem_map.mp hmem with ⟨s, hs, hk⟩
    have hkk : simKey s = natCanonKey new.id p.id := by rw [hk, canonKey_eq]
    rcases natCanonKey_cases new.id p.id with hc | hc <;> rw [hc] at hkk
    · exact (hnosim s hs).1 (congrArg Prod.fst hkk)
    · exact (hnosim s hs).2 (congrArg Prod.snd hkk)
  have hmain : createProductLinkage new (existing ++ [new]) sims =
      (sims ++ existing.map (fun p => canonRow new p 0.5), Except.ok ()) := by
    unfold createProductLinkage
    rw [hfilter]
    exact createLinkLoop_fresh new existing sims hnd habs
  refine ⟨hmain, ?_, ?_, ?_⟩
  · rw [hmain]
    dsimp only
    rw [List.length_append, List.length_map]
  · intro p hp
    unfold canonRow canonicalPair
    split
    · left
      exact ⟨rfl, rfl⟩
    · right
      exact ⟨rfl, rfl⟩
  · intro p hp
    refine ⟨rfl, ?_⟩
    have hlt := canonicalPair_lt (p := new) (q := p) (fun he => hne p hp he.symm)
    unfold canonRow
    dsimp only
    omega

/-- Witness for C7 at a concrete catalog. -/
theorem new_product_linkage_witness :
    createProductLinkage ⟨3⟩ [⟨1⟩, ⟨2⟩, ⟨3⟩] [⟨⟨1⟩, ⟨2⟩, 0.5⟩] =
      ([⟨⟨1⟩, ⟨2⟩, 0.5⟩] ++ [⟨1⟩, ⟨2⟩].map (fun p => canonRow ⟨3⟩ p 0.5),
       Except.ok ()) :=
  (new_product_linkage ⟨3⟩ [⟨1⟩, ⟨2⟩] [⟨⟨1⟩, ⟨2⟩, 0.5⟩]
    (by decide) (by decide) (by decide)).1

/-- Counterexample to C8 as stated: the save path persists an out-of-bounds score
(1.5 on insert, 1.5 on update) without any error and without clamping. -/
theorem save_out_of_bounds_counterexample :
    createSim ⟨1⟩ ⟨2⟩ 1.5 [] = Except.ok [⟨⟨1⟩, ⟨2⟩, 1.5⟩] ∧
    saveScore ⟨1⟩ ⟨2⟩ 1.5 [⟨⟨1⟩, ⟨2⟩, 0.5⟩] = [⟨⟨1⟩, ⟨2⟩, 1.5⟩] ∧
    ¬ ((1.5 : ℚ) ≤ 1) := by
  refine ⟨rfl, by with_unfolding_all rfl, by norm_num⟩

/-- Claim C8 (amended): the save path performs no bounds validation — it
re-enforces only the canonical ordering and persists the given score verbatim
(no error, no clamping), whether or not the score lies in [0,1]; in particular
saving an in-range score also succeeds unchanged. -/
theorem save_no_bounds_validation :
    (∀ s : ProductSimilarity, (ProductSimilarity.normalize s).score = s.score) ∧
    (∀ (a b : Product) (sc : ℚ) (sims : List ProductSimilarity),
      natCanonKey a.id b.id ∉ sims.map simKey →
      createSim a b sc sims =
        Except.ok (sims ++ [ProductSimilarity.normalize ⟨a, b, sc⟩])) ∧
    (∀ (a b : Product) (v : ℚ) (sims : List ProductSimilarity),
      (scoreAt sims (a.id, b.id)).isSome = true →
      scoreAt (saveScore a b v sims) (a.id, b.id) = some v) :=
  ⟨normalize_score, fun _ _ sc _ h => createSim_fresh sc h,
    fun a b v sims h => scoreAt_saveScore_self a b v sims h⟩

/-- Witness for the amended C8 with an out-of-range score. -/
theorem save_no_bounds_validation_witness :
    createSim ⟨1⟩ ⟨3⟩ 2.5 [⟨⟨1⟩, ⟨2⟩, 0.5⟩] =
      Except.ok ([⟨⟨1⟩, ⟨2⟩, 0.5⟩] ++ [ProductSimilarity.normalize ⟨⟨1⟩, ⟨3⟩, 2.5⟩]) :=
  save_no_bounds_validation.2.1 ⟨1⟩ ⟨3⟩ 2.5 [⟨⟨1⟩, ⟨2⟩, 0.5⟩] (by decide)

/-- Counterexample to C9 as stated: when the first pair's creation fails, the run
aborts — the two remaining pairs are never processed, no counts are reported, and
the store still holds only the single pre-existing row. -/
theorem init_partial_failure_counterexample :
    handle [⟨1⟩, ⟨2⟩, ⟨3⟩] [⟨⟨1⟩, ⟨2⟩, 0.7⟩] =
      ([⟨⟨1⟩, ⟨2⟩, 0.7⟩], Except.error ()) ∧
    (∀ n m : Nat,
      (handle [⟨1⟩, ⟨2⟩, ⟨3⟩] [⟨⟨1⟩, ⟨2⟩, 0.7⟩]).2 ≠ Except.ok (n, m)) ∧
    (handle [⟨1⟩, ⟨2⟩, ⟨3⟩] [⟨⟨1⟩, ⟨2⟩, 0.7⟩]).1.length = 1 := by
  have h : handle [⟨1⟩, ⟨2⟩, ⟨3⟩] [⟨⟨1⟩, ⟨2⟩, 0.7⟩] =
      ([⟨⟨1⟩, ⟨2⟩, 0.7⟩], Except.error ()) := by with_unfolding_all rfl
  refine ⟨h, ?_, by rw [h]; rfl⟩
  intro n m hc
  rw [h] at hc
  exact Except.noConfusion hc

/-- Claim C9 (amended): a failing pair creation aborts the batch immediately — the
error propagates, the remaining pairs are not processed, no counts are reported,
and exactly the rows committed before the failure remain persisted. -/
theorem init_abort_on_failure :
    ∀ (prod1 prod2 : Product) (rest : List (Product × Product))
      (sims : List ProductSimilarity) (t c : Nat) (e : Unit),
      get_or_create (canonicalPair prod1 prod2).1 (canonicalPair prod1 prod2).2
        0.5 sims = Except.error e →
      handleGo ((prod1, prod2) :: rest) sims t c = (sims, Except.error e) := by
  intro prod1 prod2 rest sims t c e h
  exact handleGo_cons_error rest t c h

/-- Witness for the amended C9: the failing pair aborts before the two remaining
pairs. -/
theorem init_abort_on_failure_witness :
    handleGo [(⟨1⟩, ⟨2⟩), (⟨1⟩, ⟨3⟩), (⟨2⟩, ⟨3⟩)] [⟨⟨1⟩, ⟨2⟩, 0.7⟩] 0 0 =
      ([⟨⟨1⟩, ⟨2⟩, 0.7⟩], Except.error ()) :=
  init_abort_on_failure ⟨1⟩ ⟨2⟩ [(⟨1⟩, ⟨3⟩), (⟨2⟩, ⟨3⟩)] [⟨⟨1⟩, ⟨2⟩, 0.7⟩] 0 0 ()
    (by with_unfolding_all rfl)

/-- Claim C10: the unclicked id list is interpreted as a set of existing products:
the outcome depends only on which ids are members (so duplicates decrement once),
an id prefixed to the list that matches no product changes nothing, and on the
concrete input with duplicated id 3 the (1,3) record is decremented exactly once. -/
theorem unclicked_ids_as_set :
    (∀ (products : List Product) (sims : List ProductSimilarity)
      (cur_id clicked_id : Nat) (ids1 ids2 : List Nat),
      (∀ n, n ∈ ids1 ↔ n ∈ ids2) →
      updateSimilarityPost products sims cur_id clicked_id ids1 =
        updateSimilarityPost products sims cur_id clicked_id ids2) ∧
    (∀ (products : List Product) (sims : List ProductSimilarity)
      (cur_id clicked_id : Nat) (x : Nat) (ids : List Nat),
      x ∉ products.map Product.id →
      updateSimilarityPost products sims cur_id clicked_id (x :: ids) =
        updateSimilarityPost products sims cur_id clicked_id ids) ∧
    updateSimilarityPost [⟨1⟩, ⟨2⟩, ⟨3⟩] [⟨⟨1⟩, ⟨2⟩, 0.5⟩, ⟨⟨1⟩, ⟨3⟩, 0.5⟩] 1 2 [3, 3] =
      ([⟨⟨1⟩, ⟨2⟩, 0.6⟩, ⟨⟨1⟩, ⟨3⟩, 0.45⟩], Except.ok ()) := by
  refine ⟨?_, ?_, by with_unfolding_all rfl⟩
  · intro products sims cur_id clicked_id ids1 ids2 hiff
    refine post_congr_filter products sims cur_id clicked_id ?_
    refine List.filter_congr ?_
    intro p hp
    by_cases h : p.id ∈ ids1
    · have h1 : ids1.contains p.id = true := List.elem_iff.mpr h
      have h2 : ids2.contains p.id = true := List.elem_iff.mpr ((hiff p.id).mp h)
      rw [h1, h2]
    · have h1 : ids1.contains p.id = false := by
        rw [Bool.eq_false_iff]
        intro hc
        exact h (List.elem_iff.mp hc)
      have h2 : ids2.contains p.id = false := by
        rw [Bool.eq_false_iff]
        intro hc
        exact h ((hiff p.id).mpr (List.elem_iff.mp hc))
      rw [h1, h2]
  · intro products sims cur_id clicked_id x ids hx
    refine post_congr_filter products sims cur_id clicked_id ?_
    refine List.filter_congr ?_
    intro p hp
    have hpx : p.id ≠ x := by
      intro he
      exact hx (he ▸ List.mem_map_of_mem Product.id hp)
    have hb : (p.id == x) = false := by
      simp [hpx]
    simp [List.contains_cons, hb]
    exact fun he => absurd he hpx

/-- Witness for C10: an id matching no product is skipped. -/
theorem unclicked_ids_as_set_witness :
    updateSimilarityPost [⟨1⟩, ⟨2⟩, ⟨3⟩] [⟨⟨1⟩, ⟨2⟩, 0.5⟩, ⟨⟨1⟩, ⟨3⟩, 0.5⟩] 1 2 [9, 3] =
      updateSimilarityPost [⟨1⟩, ⟨2⟩, ⟨3⟩] [⟨⟨1⟩, ⟨2⟩, 0.5⟩, ⟨⟨1⟩, ⟨3⟩, 0.5⟩] 1 2 [3] :=
  unclicked_ids_as_set.2.1 [⟨1⟩, ⟨2⟩, ⟨3⟩] [⟨⟨1⟩, ⟨2⟩, 0.5⟩, ⟨⟨1⟩, ⟨3⟩, 0.5⟩] 1 2 9 [3]
    (by decide)

end ProductCatalog
